import Mathlib

/-!
Shallow embedding of the langtools compiler-frontend toolkit (Rust) in Lean 4,
together with theorems settling the frozen claims about it.

The embedding mirrors the Rust sources:
  * `src/langtools/src/sourcing/{source_string.rs, source_reader.rs, sourcing_error.rs}`
  * `src/langtools/src/lexing/{dfsa.rs, dfsa_executor.rs, lexer.rs, lexer_context.rs,
    token_reader.rs, lexing_error.rs, dfsa_error.rs, lexer_trigger_action.rs}`
  * `src/langtools/src/parsing/{parse.rs, parser_token.rs, parser_sequential.rs,
    parser_choice.rs, parsing_error.rs}`
  * `src/langtools/src/domain/{source_location.rs, token.rs}`

Conventions of the embedding:
  * Rust `&mut self` methods become state-passing functions returning the result
    paired with the updated value; a fallible mutating method returns
    `Except err α × State` so that mutations performed before an early `return Err`
    are visible (this matters: `DFSA::add_transition` mutates its `HashMap`
    before reporting `TransitionAlreadyExists`).
  * `HashMap<K, V>` becomes an association list; `HashMap::insert` is modeled by
    `assocInsert`, which, exactly like the Rust method, replaces any previous
    binding and returns it.
  * `HashSet<K>` (expected-token sets, compared by set equality in the source)
    becomes `Finset K`.
  * Machine integers (`usize` offsets, `u32` line/column) become `Nat`; no claim
    involves overflow.
  * Rust strings become `List Char`.
  * The two recursions of the lexer driver (the trigger-matching loop and the
    skip-token recursion of `lex_next`) are bounded by explicit fuel; the public
    wrappers instantiate the fuel with `source.rest.length + 1`, which is enough
    because every loop iteration consumes at least one source character.
-/

namespace Langtools


/-! ## Error enums (sourcing_error.rs, dfsa_error.rs / fsa_error, lexing_error.rs) -/

/-- `SourcingError` from `sourcing/sourcing_error.rs`. -/
inductive SourcingError where
  | NoMoreChars
  | BufferingAlreadyEnabled
  | BufferingAlreadyDisabled
  | BufferingNeedsToBeEnabled
deriving DecidableEq, Repr

/-- `DFSAError` from `lexing/dfsa_error.rs` (the executor names the same enum
`FSAError`; the variants coincide). -/
inductive FSAError where
  | NoStartId
  | OutOfRangeId (id : Nat)
  | StateHasNoAction (id : Nat)
  | TransitionAlreadyExists
  | NoSuchTransition
deriving DecidableEq, Repr

/-- `LexingError` from `lexing/lexing_error.rs`. -/
inductive LexingError where
  | FSAError (err : FSAError)
  | SourcingError (err : SourcingError)
  | UnexpectedCharacter (c : Char)
  | UnexpectedEndOfSource
  | DuplicateTrigger (p : List Char)
deriving DecidableEq, Repr

/-! ## Source position model (domain/source_location.rs, domain/token.rs) -/

def OFFSET_INITIAL : Nat := 0
def LINE_INITIAL : Nat := 1
def COLUMN_INITIAL : Nat := 1

/-- `SourceLocation` from `domain/source_location.rs`; the `info` field (an
opaque path identifier) is carried as a plain string. -/
structure SourceLocation where
  path : String
  offset : Nat
  line : Nat
  column : Nat
deriving DecidableEq, Repr

/-- `Token` from `domain/token.rs`. -/
structure Token (K : Type) where
  location : SourceLocation
  text : List Char
  kind : K
deriving DecidableEq, Repr

/-- `Token::to_kindless`. -/
def Token.to_kindless (t : Token K) : Token Unit :=
  { location := t.location, text := t.text, kind := () }

/-! ## String-backed character source (sourcing/source_string.rs)

`SourceString` walks a `Peekable<Chars>`; `rest` is the not-yet-consumed suffix
of the character sequence. `eat_next` increments `offset` *before* looking at
the iterator, exactly as the Rust code does (`self.offset += 1;
self.iter.next().ok_or(NoMoreChars)`). -/

structure SourceString where
  path : String
  rest : List Char
  offset : Nat
deriving DecidableEq, Repr

def SourceString.new (path : String) (data : List Char) : SourceString :=
  { path := path, rest := data, offset := 0 }

def SourceString.has_more (s : SourceString) : Bool :=
  !s.rest.isEmpty

def SourceString.peek_next (s : SourceString) : Except SourcingError Char :=
  match s.rest with
  | [] => .error .NoMoreChars
  | c :: _ => .ok c

def SourceString.eat_next (s : SourceString) : Except SourcingError Char × SourceString :=
  let s' : SourceString := { s with offset := s.offset + 1 }
  match s'.rest with
  | [] => (.error .NoMoreChars, s')
  | c :: cs => (.ok c, { s' with rest := cs })

/-! ## Source reader (sourcing/source_reader.rs) -/

/-- `SourceReader` over the string-backed source. `buffer = none` means
buffering is disabled; `buffer = some b` means enabled with contents `b`. -/
structure SourceReader where
  source : SourceString
  location : SourceLocation
  buffer : Option (List Char)
deriving DecidableEq, Repr

/-- `SourceReader::new`: initial location `(path, 0, 1, 1)`, buffering disabled. -/
def SourceReader.new (s : SourceString) : SourceReader :=
  { source := s
    location :=
      { path := s.path, offset := OFFSET_INITIAL, line := LINE_INITIAL,
        column := COLUMN_INITIAL }
    buffer := none }

def SourceReader.is_buffering_enabled (r : SourceReader) : Bool :=
  r.buffer.isSome

def SourceReader.enable_buffering (r : SourceReader) :
    Except SourcingError Unit × SourceReader :=
  match r.buffer with
  | some _ => (.error .BufferingAlreadyEnabled, r)
  | none => (.ok (), { r with buffer := some [] })

def SourceReader.disable_buffering (r : SourceReader) :
    Except SourcingError Unit × SourceReader :=
  match r.buffer with
  | none => (.error .BufferingAlreadyDisabled, r)
  | some _ => (.ok (), { r with buffer := none })

def SourceReader.is_buffer_empty (r : SourceReader) : Bool :=
  match r.buffer with
  | some b => b.isEmpty
  | none => true

def SourceReader.clear_buffer (r : SourceReader) :
    Except SourcingError Unit × SourceReader :=
  match r.buffer with
  | none => (.error .BufferingNeedsToBeEnabled, r)
  | some _ => (.ok (), { r with buffer := some [] })

/-- `SourceReader::pop_buffer` uses `Option::replace`, which installs the fresh
empty buffer unconditionally and returns the previous contents. -/
def SourceReader.pop_buffer (r : SourceReader) :
    Except SourcingError (List Char) × SourceReader :=
  let r' : SourceReader := { r with buffer := some [] }
  match r.buffer with
  | none => (.error .BufferingNeedsToBeEnabled, r')
  | some b => (.ok b, r')

/-- `SourceReader::eat_next_helper_fold_newlines`. A consumed `'\r'` peeks at
the next character: `'\r'` or `'\n'` is also consumed and the pair folds to
`'\n'`; any other character folds to `'\n'` with one consume; a peek *error*
(end of input) is propagated by the catch-all `error => error` arm. -/
def SourceReader.eat_next_helper_fold_newlines (r : SourceReader) :
    Except SourcingError Char × SourceReader :=
  match r.source.eat_next with
  | (.error e, s) => (.error e, { r with source := s })
  | (.ok c, s) =>
    if c = '\r' then
      match s.peek_next with
      | .ok '\r' =>
        match s.eat_next with
        | (.ok _, s2) => (.ok '\n', { r with source := s2 })
        | (.error e, s2) => (.error e, { r with source := s2 })
      | .ok '\n' =>
        match s.eat_next with
        | (.ok _, s2) => (.ok '\n', { r with source := s2 })
        | (.error e, s2) => (.error e, { r with source := s2 })
      | .ok _ => (.ok '\n', { r with source := s })
      | .error e => (.error e, { r with source := s })
    else
      (.ok c, { r with source := s })

/-- `SourceReader::eat_next_helper_update_location`: a yielded `'\n'` increments
`line` and resets `column`; any other character increments `column`; `offset`
then mirrors the wrapped source's offset. -/
def SourceReader.eat_next_helper_update_location (r : SourceReader) :
    Except SourcingError Char × SourceReader :=
  match r.eat_next_helper_fold_newlines with
  | (.error e, r') => (.error e, r')
  | (.ok c, r') =>
    let loc := r'.location
    let loc :=
      if c = '\n' then
        { loc with line := loc.line + 1, column := COLUMN_INITIAL }
      else
        { loc with column := loc.column + 1 }
    let loc := { loc with offset := r'.source.offset }
    (.ok c, { r' with location := loc })

/-- `SourceReader::eat_next_helper_push_buffer`: the consumed (post-folding)
character is appended to the capture buffer when one is present. -/
def SourceReader.eat_next_helper_push_buffer (r : SourceReader) :
    Except SourcingError Char × SourceReader :=
  match r.eat_next_helper_update_location with
  | (.error e, r') => (.error e, r')
  | (.ok c, r') =>
    match r'.buffer with
    | some b => (.ok c, { r' with buffer := some (b ++ [c]) })
    | none => (.ok c, r')

/-- `<SourceReader as ReadSource>::eat_next`. -/
def SourceReader.eat_next (r : SourceReader) :
    Except SourcingError Char × SourceReader :=
  r.eat_next_helper_push_buffer

/-- `<SourceReader as ReadSource>::peek_next`: a peeked `'\r'` appears as
`'\n'`; peeking never mutates the string-backed source. -/
def SourceReader.peek_next (r : SourceReader) : Except SourcingError Char :=
  match r.source.peek_next with
  | .ok '\r' => .ok '\n'
  | other => other

/-- `<SourceReader as ReadSource>::offset`. -/
def SourceReader.offset (r : SourceReader) : Nat :=
  r.source.offset

/-! ## DFSA (lexing/dfsa.rs)

`HashMap<TElement, DFSAId>` is modeled as an association list with at most one
binding per key. `assocGet` models `HashMap::get`; `assocInsert` models
`HashMap::insert`: it *replaces* any existing binding and returns the previous
value, exactly like the Rust method. -/

def assocGet [DecidableEq E] : List (E × Nat) → E → Option Nat
  | [], _ => none
  | (k', v') :: rest, k => if k' = k then some v' else assocGet rest k

def assocInsert [DecidableEq E] : List (E × Nat) → E → Nat → Option Nat × List (E × Nat)
  | [], k, v => (none, [(k, v)])
  | (k', v') :: rest, k, v =>
    if k' = k then
      (some v', (k, v) :: rest)
    else
      let (old, rest') := assocInsert rest k v
      (old, (k', v') :: rest')

/-- `DFSAState` from `lexing/dfsa.rs`. -/
structure DFSAState (E A : Type) where
  action : Option A
  transitions : List (E × Nat)

/-- `DFSA` from `lexing/dfsa.rs`: an arena of states plus an optional start id. -/
structure DFSA (E A : Type) where
  states : List (DFSAState E A)
  start_id : Option Nat

def DFSAState.new : DFSAState E A :=
  { action := none, transitions := [] }

def DFSAState.new_with_action (a : A) : DFSAState E A :=
  { action := some a, transitions := [] }

def DFSA.new : DFSA E A :=
  { states := [], start_id := none }

/-- `DFSA::add_state`: the fresh state's id (the old length) is returned. -/
def DFSA.add_state (d : DFSA E A) : Nat × DFSA E A :=
  (d.states.length, { d with states := d.states ++ [DFSAState.new] })

def DFSA.add_state_with_action (d : DFSA E A) (a : A) : Nat × DFSA E A :=
  (d.states.length, { d with states := d.states ++ [DFSAState.new_with_action a] })

def DFSA.is_id_in_bounds (d : DFSA E A) (id : Nat) : Bool :=
  id < d.states.length

/-- `DFSA::try_get_state` (`states.get(id).ok_or(OutOfRangeId)`). -/
def DFSA.try_get_state (d : DFSA E A) (id : Nat) : Except FSAError (DFSAState E A) :=
  match d.states.get? id with
  | some st => .ok st
  | none => .error (.OutOfRangeId id)

/-- `DFSA::add_transition`. The destination is bounds-checked up front; the
source state is then fetched mutably and the element/destination pair inserted
into its transition map. When the insertion reports a previous binding the
method returns `TransitionAlreadyExists` — but the insertion has already
happened, so the mutated map (with the *new* destination) is kept. -/
def DFSA.add_transition [DecidableEq E] (d : DFSA E A) (from_id : Nat)
    (on_element : E) (to_id : Nat) : Except FSAError Unit × DFSA E A :=
  if !d.is_id_in_bounds to_id then
    (.error (.OutOfRangeId to_id), d)
  else
    match d.states.get? from_id with
    | none => (.error (.OutOfRangeId from_id), d)
    | some st =>
      let (old, trans') := assocInsert st.transitions on_element to_id
      let d' : DFSA E A :=
        { d with states := d.states.set from_id { st with transitions := trans' } }
      match old with
      | some _ => (.error .TransitionAlreadyExists, d')
      | none => (.ok (), d')

def DFSA.try_get_start_id (d : DFSA E A) : Except FSAError Nat :=
  match d.start_id with
  | some id => .ok id
  | none => .error .NoStartId

def DFSA.set_start_id (d : DFSA E A) (id : Nat) : Except FSAError Unit × DFSA E A :=
  if d.is_id_in_bounds id then
    (.ok (), { d with start_id := some id })
  else
    (.error (.OutOfRangeId id), d)

def DFSA.try_get_state_action (d : DFSA E A) (id : Nat) : Except FSAError A :=
  match d.try_get_state id with
  | .error e => .error e
  | .ok st =>
    match st.action with
    | some a => .ok a
    | none => .error (.StateHasNoAction id)

def DFSA.set_state_action (d : DFSA E A) (id : Nat) (a : Option A) :
    Except FSAError Unit × DFSA E A :=
  match d.states.get? id with
  | none => (.error (.OutOfRangeId id), d)
  | some st =>
    (.ok (), { d with states := d.states.set id { st with action := a } })

def DFSA.try_get_transition [DecidableEq E] (d : DFSA E A) (from_id : Nat)
    (on_element : E) : Except FSAError Nat :=
  match d.try_get_state from_id with
  | .error e => .error e
  | .ok st =>
    match assocGet st.transitions on_element with
    | some to_id => .ok to_id
    | none => .error .NoSuchTransition

/-! ## DFSA executor (lexing/dfsa_executor.rs)

The Rust executor holds a borrow of the DFSA; here the DFSA is passed to each
operation instead, and the executor carries only the two ids. -/

structure DFSAExecutor where
  start_id : Nat
  current_id : Nat
deriving DecidableEq, Repr

/-- `DFSAExecutor::new`: requires the DFSA to have a start id. -/
def DFSAExecutor.new (d : DFSA E A) : Except FSAError DFSAExecutor :=
  match d.try_get_start_id with
  | .error e => .error e
  | .ok s => .ok { start_id := s, current_id := s }

def DFSAExecutor.reset (ex : DFSAExecutor) : DFSAExecutor :=
  { ex with current_id := ex.start_id }

/-- `DFSAExecutor::step`: moves to the transition's destination, or fails
leaving the cursor unchanged. -/
def DFSAExecutor.step [DecidableEq E] (ex : DFSAExecutor) (d : DFSA E A)
    (e : E) : Except FSAError Unit × DFSAExecutor :=
  match d.try_get_transition ex.current_id e with
  | .ok next_id => (.ok (), { ex with current_id := next_id })
  | .error err => (.error err, ex)

def DFSAExecutor.current_action (ex : DFSAExecutor) (d : DFSA E A) : Option A :=
  (d.try_get_state_action ex.current_id).toOption

/-- `DFSAExecutor::is_at_start`: compares the cursor id with the start id. -/
def DFSAExecutor.is_at_start (ex : DFSAExecutor) : Bool :=
  ex.start_id == ex.current_id

/-! ## Lexer definition (lexing/lexer.rs, lexing/lexer_trigger_action.rs)

A trigger callback receives the source reader (with full mutation capability)
and returns an optional token kind; it is modeled as a state-passing function. -/

structure LexerTriggerAction (K : Type) where
  callback : SourceReader → Option K × SourceReader

structure Lexer (K : Type) where
  trigger_dfsa : DFSA Char (LexerTriggerAction K)
  error_handler : Option (SourceReader → SourceReader)

/-- `Lexer::new`: a trigger DFSA with a single state which becomes the start. -/
def Lexer.new : Lexer K :=
  let d : DFSA Char (LexerTriggerAction K) := DFSA.new
  let (start_id, d) := d.add_state
  let (_, d) := d.set_start_id start_id
  { trigger_dfsa := d, error_handler := none }

/-- The walk of `Lexer::add_trigger`: follow existing edges for each prefix
character, adding a fresh state and edge when none exists; returns the id of
the final state. -/
def addTriggerWalk [DecidableEq E] :
    List E → DFSA E A → Nat → Except FSAError Nat × DFSA E A
  | [], d, current_id => (.ok current_id, d)
  | c :: cs, d, current_id =>
    match d.try_get_transition current_id c with
    | .ok next_id => addTriggerWalk cs d next_id
    | .error _ =>
      let (next_id, d) := d.add_state
      match d.add_transition current_id c next_id with
      | (.ok _, d) => addTriggerWalk cs d next_id
      | (.error e, d) => (.error e, d)

/-- `Lexer::add_trigger`. The Rust code asserts the prefix is non-empty; the
final state of the walk receives the callback as its action, and a state that
already carries an action yields `DuplicateTrigger`. -/
def Lexer.add_trigger (l : Lexer K) (pfx : List Char)
    (callback : SourceReader → Option K × SourceReader) :
    Except LexingError Unit × Lexer K :=
  match l.trigger_dfsa.try_get_start_id with
  | .error e => (.error (.FSAError e), l)
  | .ok start_id =>
    match addTriggerWalk pfx l.trigger_dfsa start_id with
    | (.error e, d) => (.error (.FSAError e), { l with trigger_dfsa := d })
    | (.ok current_id, d) =>
      match d.try_get_state_action current_id with
      | .ok _ => (.error (.DuplicateTrigger pfx), { l with trigger_dfsa := d })
      | .error _ =>
        match d.set_state_action current_id (some ⟨callback⟩) with
        | (.ok _, d) => (.ok (), { l with trigger_dfsa := d })
        | (.error e, d) => (.error (.FSAError e), { l with trigger_dfsa := d })

/-- `Lexer::get_error_handler`: defaults to consuming one character. -/
def Lexer.get_error_handler (l : Lexer K) : SourceReader → SourceReader :=
  l.error_handler.getD (fun r => (r.eat_next).2)

/-! ## Lexer driver (lexing/lexer_context.rs)

`lex_next_trigger_action` runs the greedy longest-match loop: remember the most
recently seen state action, peek the next character, attempt to step, and
consume the character only when the step succeeded. The loop consumes at least
one source character per iteration, so the wrapper's fuel
`source.rest.length + 1` is never exhausted. -/

def LexerContext.lex_next_trigger_action_loop (d : DFSA Char (LexerTriggerAction K)) :
    Nat → DFSAExecutor → Option (LexerTriggerAction K) → SourceReader →
    Except SourcingError (Option (LexerTriggerAction K) × DFSAExecutor) × SourceReader
  | 0, ex, last, r => (.ok (last, ex), r)
  | fuel + 1, ex, last, r =>
    let current := ex.current_action d
    let last := if current.isSome then current else last
    match r.peek_next with
    | .error _ => (.ok (last, ex), r)
    | .ok next_char =>
      match ex.step d next_char with
      | (.ok _, ex') =>
        match r.eat_next with
        | (.ok _, r') => LexerContext.lex_next_trigger_action_loop d fuel ex' last r'
        | (.error e, r') => (.error e, r')
      | (.error _, _) => (.ok (last, ex), r)

/-- `LexerContext::lex_next_trigger_action`: create a fresh executor, remember
the first peeked character, run the loop; when no accepting state was seen,
report `UnexpectedCharacter` (if the executor never left the start) or
`UnexpectedEndOfSource`. -/
def LexerContext.lex_next_trigger_action (lexer : Lexer K) (r : SourceReader) :
    Except LexingError (LexerTriggerAction K) × SourceReader :=
  match DFSAExecutor.new lexer.trigger_dfsa with
  | .error e => (.error (.FSAError e), r)
  | .ok ex =>
    let first_char := (r.peek_next).toOption
    match LexerContext.lex_next_trigger_action_loop lexer.trigger_dfsa
        (r.source.rest.length + 1) ex none r with
    | (.error e, r') => (.error (.SourcingError e), r')
    | (.ok (last, ex'), r') =>
      match last with
      | some act => (.ok act, r')
      | none =>
        match first_char with
        | some c =>
          if ex'.is_at_start then (.error (.UnexpectedCharacter c), r')
          else (.error .UnexpectedEndOfSource, r')
        | none => (.error .UnexpectedEndOfSource, r')

/-- `LexerContext::lex_next`, fuel-indexed: when a trigger's callback returns
no kind the buffer is cleared and lexing recurses. The Rust method asserts (as
a precondition) that buffering is enabled with an empty buffer. -/
def LexerContext.lex_next_fueled (lexer : Lexer K) :
    Nat → SourceReader → Except LexingError (Token K) × SourceReader
  | 0, r => (.error .UnexpectedEndOfSource, r)
  | fuel + 1, r =>
    match LexerContext.lex_next_trigger_action lexer r with
    | (.error e, r') => (.error e, r')
    | (.ok act, r') =>
      match act.callback r' with
      | (some kind, r'') =>
        match r''.pop_buffer with
        | (.ok text, r3) =>
          -- the token's location is the one saved before the trigger was read
          (.ok { location := r.location, text := text, kind := kind }, r3)
        | (.error e, r3) => (.error (.SourcingError e), r3)
      | (none, r'') =>
        match r''.clear_buffer with
        | (.ok _, r3) => LexerContext.lex_next_fueled lexer fuel r3
        | (.error e, r3) => (.error (.SourcingError e), r3)

/-- `LexerContext::lex_next` with the skip-recursion fuel instantiated to a
bound sufficient for any source. -/
def LexerContext.lex_next (lexer : Lexer K) (r : SourceReader) :
    Except LexingError (Token K) × SourceReader :=
  LexerContext.lex_next_fueled lexer (r.source.rest.length + 1) r

/-! ## Token reader (lexing/token_reader.rs)

The lazy upstream token iterator is modeled by the list of tokens it has not
yet produced; `ensure_buffer_is_filled` pulls one token across when the cursor
has reached the end of the buffered vector. -/

structure TokenReader (K : Type) where
  tokens : List (Token K)
  offset : Nat
  upstream : List (Token K)
deriving DecidableEq

def TokenReader.new (upstream : List (Token K)) : TokenReader K :=
  { tokens := [], offset := 0, upstream := upstream }

def TokenReader.ensure_buffer_is_filled (r : TokenReader K) : TokenReader K :=
  if r.tokens.length ≤ r.offset then
    match r.upstream with
    | [] => r
    | t :: ts => { r with tokens := r.tokens ++ [t], upstream := ts }
  else
    r

/-- `TokenReader::seek`: the Rust code asserts `offset ≤ self.offset`
("cannot seek forward"); backward seeking just moves the cursor. -/
def TokenReader.seek (r : TokenReader K) (offset : Nat) : TokenReader K :=
  { r with offset := offset }

def TokenReader.has_more (r : TokenReader K) : Bool × TokenReader K :=
  let r := r.ensure_buffer_is_filled
  (r.offset < r.tokens.length, r)

def TokenReader.peek_next (r : TokenReader K) : Option (Token K) × TokenReader K :=
  let r := r.ensure_buffer_is_filled
  match r.tokens.get? r.offset with
  | some t => (some t, r)
  | none => (none, r)

def TokenReader.eat_next (r : TokenReader K) : Option (Token K) × TokenReader K :=
  let r := r.ensure_buffer_is_filled
  match r.tokens.get? r.offset with
  | some t => (some t, { r with offset := r.offset + 1 })
  | none => (none, r)

/-! ## Parsing errors (parsing/parsing_error.rs)

Expected-token sets are `HashSet`s compared by set equality in the source; they
are modeled as `Finset`s. -/

inductive ParsingError (K : Type) where
  | UnexpectedEndOfSource (expected_token_kinds : Finset K)
  | UnexpectedToken (expected_token_kinds : Finset K) (actual_token : Token K)
  | RequiredParserFieldMissing (name : String)
  | NoExpectedTokensProvided
deriving DecidableEq

/-! ## Parser combinators (parsing/parse.rs, parser_token.rs,
parser_sequential.rs, parser_choice.rs)

The `Tree` trait exposes the anchoring token of a node. The heterogeneous
`Vec<Box<dyn Parse>>` lists of the sequence and choice combinators are modeled
by the mutually inductive `ParserList`, so that all parser operations are
structurally recursive (and hence compute definitionally). -/

class Tree (T : Type) where
  token : T → Token Unit

mutual

inductive Parser (K T : Type) where
  | token (token_kind : K) (action : Token Unit → T)
  | sequential (sequence : ParserList K T) (action : Token Unit → List T → T)
  | choice (choices : ParserList K T)

inductive ParserList (K T : Type) where
  | nil
  | cons (head : Parser K T) (tail : ParserList K T)

end

/-- The body of the blanket `Parse::expected_tokens` (parse.rs): delegate to
`expected_tokens_unsafe` and reject an empty set with
`NoExpectedTokensProvided`. -/
def expectedSafe [DecidableEq K] (r : Except (ParsingError K) (Finset K)) :
    Except (ParsingError K) (Finset K) :=
  match r with
  | .ok result => if result = ∅ then .error .NoExpectedTokensProvided else .ok result
  | .error e => .error e

mutual

/-- `expected_tokens_unsafe` of the three combinators: a terminal declares its
single kind; a sequence delegates to its first sub-parser's (checked)
`expected_tokens`; a choice unions all children's (checked) `expected_tokens`. -/
def Parser.expected_tokens_unsafe [DecidableEq K] :
    Parser K T → Except (ParsingError K) (Finset K)
  | .token token_kind _ => .ok {token_kind}
  | .sequential s _ => s.firstExpected
  | .choice cs => cs.unionExpected

def ParserList.firstExpected [DecidableEq K] :
    ParserList K T → Except (ParsingError K) (Finset K)
  | .nil => .error (.RequiredParserFieldMissing "sequence")
  | .cons p _ => expectedSafe p.expected_tokens_unsafe

def ParserList.unionExpected [DecidableEq K] :
    ParserList K T → Except (ParsingError K) (Finset K)
  | .nil => .ok ∅
  | .cons p ps =>
    match expectedSafe p.expected_tokens_unsafe with
    | .error e => .error e
    | .ok es =>
      match ps.unionExpected with
      | .error e => .error e
      | .ok rest => .ok (es ∪ rest)

end

/-- `Parse::expected_tokens` (the checked wrapper). -/
def Parser.expected_tokens [DecidableEq K] (p : Parser K T) :
    Except (ParsingError K) (Finset K) :=
  expectedSafe p.expected_tokens_unsafe

mutual

/-- `parse` of the three combinators. Terminal: consume one token and match its
kind. Sequence: run each sub-parser in order, anchor at the first child's
token. Choice: remember the offset, try children in order seeking back after
each failure; when all fail, report the token at the reader (or end of source)
with the union of expected kinds. -/
def Parser.parse [DecidableEq K] [Tree T] :
    Parser K T → TokenReader K → Except (ParsingError K) T × TokenReader K
  | .token token_kind action, r =>
    match r.eat_next with
    | (some tok, r1) =>
      if tok.kind = token_kind then
        (.ok (action tok.to_kindless), r1)
      else
        match (Parser.token token_kind action : Parser K T).expected_tokens with
        | .ok es => (.error (.UnexpectedToken es tok), r1)
        | .error e => (.error e, r1)
    | (none, r1) =>
      match (Parser.token token_kind action : Parser K T).expected_tokens with
      | .ok es => (.error (.UnexpectedEndOfSource es), r1)
      | .error e => (.error e, r1)
  | .sequential s action, r =>
    match ParserList.parseSeq s r with
    | (.ok children, r1) =>
      match children.head? with
      | some c0 => (.ok (action (Tree.token c0) children), r1)
      | none => (.error (.RequiredParserFieldMissing "sequence"), r1)
    | (.error e, r1) => (.error e, r1)
  | .choice cs, r =>
    match ParserList.parseChoices cs r.offset r with
    | (some t, r1) => (.ok t, r1)
    | (none, r1) =>
      match r1.peek_next with
      | (some tok, r2) =>
        match (Parser.choice cs : Parser K T).expected_tokens with
        | .ok es => (.error (.UnexpectedToken es tok), r2)
        | .error e => (.error e, r2)
      | (none, r2) =>
        match (Parser.choice cs : Parser K T).expected_tokens with
        | .ok es => (.error (.UnexpectedEndOfSource es), r2)
        | .error e => (.error e, r2)

/-- The child loop of `ParserSequential::parse`: run each child, collecting the
trees; the first failure propagates unchanged. -/
def ParserList.parseSeq [DecidableEq K] [Tree T] :
    ParserList K T → TokenReader K → Except (ParsingError K) (List T) × TokenReader K
  | .nil, r => (.ok [], r)
  | .cons p ps, r =>
    match p.parse r with
    | (.ok c, r1) =>
      match ParserList.parseSeq ps r1 with
      | (.ok cs, r2) => (.ok (c :: cs), r2)
      | (.error e, r2) => (.error e, r2)
    | (.error e, r1) => (.error e, r1)

/-- The child loop of `ParserChoice::parse`: return the first success; on each
failure seek back to the saved offset and try the next child. -/
def ParserList.parseChoices [DecidableEq K] [Tree T] :
    ParserList K T → Nat → TokenReader K → Option T × TokenReader K
  | .nil, _, r => (none, r)
  | .cons p ps, saved, r =>
    match p.parse r with
    | (.ok t, r1) => (some t, r1)
    | (.error _, r1) => ParserList.parseChoices ps saved (r1.seek saved)

end
/-! ## Claim C4: CRLF folding trace over "ab\r\ncd" -/

def c4_r0 : SourceReader := SourceReader.new (SourceString.new "--" "ab\r\ncd".toList)

def c4_e1 : Except SourcingError Char × SourceReader := c4_r0.eat_next

def c4_e2 : Except SourcingError Char × SourceReader := c4_e1.2.eat_next

def c4_e3 : Except SourcingError Char × SourceReader := c4_e2.2.eat_next

def c4_e4 : Except SourcingError Char × SourceReader := c4_e3.2.eat_next

def c4_e5 : Except SourcingError Char × SourceReader := c4_e4.2.eat_next

/-! ## Claim C3: a lone '\r' at end of input

The claim (and spec) say the consumed '\r' yields '\n' with one consume, after
which line = 2 and column = 1. The code's newline-folding `match` propagates
the *peek error* through its catch-all arm instead, so `eat_next` returns
`NoMoreChars` even though the '\r' was already consumed from the underlying
source, and the tracked location is left untouched. -/

def c3_r0 : SourceReader := SourceReader.new (SourceString.new "--" "\r".toList)

/-! ## Claim C8: string-backed source offset accounting

`SourceString::eat_next` increments `offset` *before* consulting the iterator,
so a failed eat (exhausted source) still increments the offset. -/

def c8_s_empty : SourceString := SourceString.new "--" []

def c8_s_a : SourceString := SourceString.new "--" "a".toList

/-! ## Claim C1: greedy longest match over "abacabcac" -/

inductive TokenKindTest where
  | AB
  | AC
  | ABC
deriving DecidableEq, Repr

def c1_cb_ab : SourceReader → Option TokenKindTest × SourceReader :=
  fun r => (some .AB, r)

def c1_cb_ac : SourceReader → Option TokenKindTest × SourceReader :=
  fun r => (some .AC, r)

def c1_cb_abc : SourceReader → Option TokenKindTest × SourceReader :=
  fun r => (some .ABC, r)

def lexerABC : Lexer TokenKindTest :=
  ((((Lexer.new : Lexer TokenKindTest).add_trigger "ab".toList c1_cb_ab).2.add_trigger
      "ac".toList c1_cb_ac).2.add_trigger "abc".toList c1_cb_abc).2

def c1_r0 : SourceReader :=
  ((SourceReader.new (SourceString.new "--" "abacabcac".toList)).enable_buffering).2

def c1_s1 : Except LexingError (Token TokenKindTest) × SourceReader :=
  LexerContext.lex_next lexerABC c1_r0

def c1_s2 : Except LexingError (Token TokenKindTest) × SourceReader :=
  LexerContext.lex_next lexerABC c1_s1.2

def c1_s3 : Except LexingError (Token TokenKindTest) × SourceReader :=
  LexerContext.lex_next lexerABC c1_s2.2

def c1_s4 : Except LexingError (Token TokenKindTest) × SourceReader :=
  LexerContext.lex_next lexerABC c1_s3.2

def c1_s5 : Except LexingError (Token TokenKindTest) × SourceReader :=
  LexerContext.lex_next lexerABC c1_s4.2

/-- A lexer built from `Lexer::new` followed by a sequence of `add_trigger`
calls for the given (prefix, callback) pairs. -/
def Lexer.from_triggers
    (ts : List (List Char × (SourceReader → Option K × SourceReader))) : Lexer K :=
  ts.foldl (fun l t => (l.add_trigger t.1 t.2).2) Lexer.new

/-! ## Claim C2: duplicate transition insertion

`DFSA::add_transition` performs `HashMap::insert` first and only then inspects
the returned previous binding, so the failing duplicate insertion has already
*replaced* the stored destination. -/

def c2_d3 : DFSA Char Unit :=
  ((((DFSA.new : DFSA Char Unit).add_state).2.add_state).2.add_state).2

def c2_first : Except FSAError Unit × DFSA Char Unit := c2_d3.add_transition 0 'a' 1

def c2_second : Except FSAError Unit × DFSA Char Unit :=
  c2_first.2.add_transition 0 'a' 2

/-! ## Claim C7: `is_at_start` semantics

`is_at_start` compares the cursor id with the start id, so a successful step
along a transition that loops back to the start state leaves it `true` — the
claim that any successful step makes it `false` fails on such a DFSA. -/

def c7_dfsa : DFSA Char Unit :=
  let d : DFSA Char Unit := DFSA.new
  let (s, d) := d.add_state
  let (_, d) := d.add_transition s 'a' s
  let (_, d) := d.set_start_id s
  d

/-! ## Concrete token kinds, trees and readers used by the parsing claims -/

inductive PK where
  | A
  | B
  | C
deriving DecidableEq, Repr

structure PT where
  tok : Token Unit
deriving DecidableEq

instance : Tree PT := ⟨PT.tok⟩

def tokA : Token PK := ⟨⟨"--", 0, 1, 1⟩, "a".toList, .A⟩

def tokB : Token PK := ⟨⟨"--", 1, 1, 2⟩, "b".toList, .B⟩

def tokC : Token PK := ⟨⟨"--", 0, 1, 1⟩, "c".toList, .C⟩

def rdC : TokenReader PK := TokenReader.new [tokC]

def rdEmptyPK : TokenReader PK := TokenReader.new []

def rdAB : TokenReader PK := TokenReader.new [tokA, tokB]

def csAB : ParserList PK PT := .cons (.token PK.A PT.mk) (.cons (.token PK.B PT.mk) .nil)

def c6_act : Token Unit → List PT → PT := fun anchor _ => PT.mk anchor

def seqAB : Parser PK PT :=
  .sequential (.cons (.token PK.A PT.mk) (.cons (.token PK.B PT.mk) .nil)) c6_act



/-! ## Token reader and parser lemmas shared by the parsing claims -/

theorem TokenReader.ensure_buffer_is_filled_offset (r : TokenReader K) :
    r.ensure_buffer_is_filled.offset = r.offset := by
  unfold TokenReader.ensure_buffer_is_filled
  repeat' split
  all_goals rfl

theorem TokenReader.peek_next_offset (r : TokenReader K) :
    (r.peek_next).2.offset = r.offset := by
  simp only [TokenReader.peek_next]
  rcases hg : r.ensure_buffer_is_filled.tokens.get? r.ensure_buffer_is_filled.offset
    with _ | t
  all_goals exact r.ensure_buffer_is_filled_offset

theorem TokenReader.eat_next_offset_some (r : TokenReader K) (t : Token K)
    (r' : TokenReader K) (h : r.eat_next = (some t, r')) :
    r'.offset = r.offset + 1 := by
  simp only [TokenReader.eat_next] at h
  rcases hg : r.ensure_buffer_is_filled.tokens.get? r.ensure_buffer_is_filled.offset
    with _ | t2
  all_goals rw [hg] at h
  · injection h with h1 h2
    simp at h1
  · injection h with h1 h2
    rw [← h2]
    simp [TokenReader.ensure_buffer_is_filled_offset r]

theorem TokenReader.eat_next_offset_none (r : TokenReader K) (r' : TokenReader K)
    (h : r.eat_next = (none, r')) : r'.offset = r.offset := by
  simp only [TokenReader.eat_next] at h
  rcases hg : r.ensure_buffer_is_filled.tokens.get? r.ensure_buffer_is_filled.offset
    with _ | t2
  all_goals rw [hg] at h
  · injection h with h1 h2
    rw [← h2]
    exact r.ensure_buffer_is_filled_offset
  · injection h with h1 h2
    simp at h1

theorem token_expected_tokens [DecidableEq K] (k : K) (act : Token Unit → T) :
    (Parser.token k act : Parser K T).expected_tokens = .ok {k} := by
  simp [Parser.expected_tokens, Parser.expected_tokens_unsafe, expectedSafe,
    Finset.singleton_ne_empty]

theorem expectedSafe_idem [DecidableEq K] (x : Except (ParsingError K) (Finset K)) :
    expectedSafe (expectedSafe x) = expectedSafe x := by
  cases x with
  | error e => rfl
  | ok es => by_cases h : es = ∅ <;> simp [expectedSafe, h]

theorem expectedSafe_ok [DecidableEq K] (x : Except (ParsingError K) (Finset K))
    (es : Finset K) (h : expectedSafe x = .ok es) : x = .ok es := by
  cases x with
  | error e => cases h
  | ok es2 =>
    simp only [expectedSafe] at h
    by_cases h2 : es2 = ∅
    · rw [if_pos h2] at h; cases h
    · rw [if_neg h2] at h; exact h

/-- C4: over the string source "ab\r\ncd" the consumed characters are
a, b, '\n', c, d and the (offset, line, column) trace is
(0,1,1) → (1,1,2) → (2,1,3) → (4,2,1) → (5,2,2) → (6,2,3): the offset jumps by
2 across the folded CRLF while line increments and column resets to 1. -/
theorem c4_crlf_folding_trace :
    c4_r0.location = ⟨"--", 0, 1, 1⟩
  ∧ c4_e1.1 = .ok 'a' ∧ c4_e1.2.location = ⟨"--", 1, 1, 2⟩
  ∧ c4_e2.1 = .ok 'b' ∧ c4_e2.2.location = ⟨"--", 2, 1, 3⟩
  ∧ c4_e3.1 = .ok '\n' ∧ c4_e3.2.location = ⟨"--", 4, 2, 1⟩
  ∧ c4_e4.1 = .ok 'c' ∧ c4_e4.2.location = ⟨"--", 5, 2, 2⟩
  ∧ c4_e5.1 = .ok 'd' ∧ c4_e5.2.location = ⟨"--", 6, 2, 3⟩ :=
  ⟨rfl, rfl, rfl, rfl, rfl, rfl, rfl, rfl, rfl, rfl, rfl⟩

/-- C3: over the source "\r", `eat_next` does NOT yield '\n': it returns the
`NoMoreChars` error from the lookahead peek, after having consumed the '\r'
from the underlying source (offset 1), and the location stays at line 1,
column 1. -/
theorem c3_cr_at_end_of_source :
    (c3_r0.eat_next).1 = .error .NoMoreChars
  ∧ (c3_r0.eat_next).2.source.offset = 1
  ∧ (c3_r0.eat_next).2.source.rest = []
  ∧ (c3_r0.eat_next).2.location.line = 1
  ∧ (c3_r0.eat_next).2.location.column = 1 :=
  ⟨rfl, rfl, rfl, rfl, rfl⟩

/-- C8: a successful `eat_next` increases the offset by exactly one, but an
`eat_next` that fails with `NoMoreChars` ALSO increments the offset (from 0 to
1 on an empty source), contradicting the claim that a failed eat leaves the
offset unchanged. -/
theorem c8_eat_next_offset :
    (c8_s_a.eat_next).1 = .ok 'a'
  ∧ (c8_s_a.eat_next).2.offset = 1
  ∧ (c8_s_empty.eat_next).1 = .error .NoMoreChars
  ∧ (c8_s_empty.eat_next).2.offset = 1 :=
  ⟨rfl, rfl, rfl, rfl⟩

/-- C1: with triggers "ab" → AB, "ac" → AC, "abc" → ABC over the buffered
string source "abacabcac", successive `lex_next` calls return
AB("ab")@(0,1,1), AC("ac")@(2,1,3), ABC("abc")@(4,1,5), AC("ac")@(7,1,8), and
the fifth call returns `UnexpectedEndOfSource` — in particular at offset 4
both "ab" and "abc" match and the longest trigger wins. -/
theorem c1_longest_match :
    c1_s1.1 = .ok ⟨⟨"--", 0, 1, 1⟩, "ab".toList, .AB⟩
  ∧ c1_s2.1 = .ok ⟨⟨"--", 2, 1, 3⟩, "ac".toList, .AC⟩
  ∧ c1_s3.1 = .ok ⟨⟨"--", 4, 1, 5⟩, "abc".toList, .ABC⟩
  ∧ c1_s4.1 = .ok ⟨⟨"--", 7, 1, 8⟩, "ac".toList, .AC⟩
  ∧ c1_s5.1 = .error .UnexpectedEndOfSource :=
  ⟨rfl, rfl, rfl, rfl, rfl⟩

/-! ## Claim C10: the trigger DFSA always has its start state

`Lexer::new` creates the start state (id 0) and none of the operations invoked
by `add_trigger` ever touches the start id. -/

theorem DFSA.add_state_start_id (d : DFSA E A) :
    (d.add_state).2.start_id = d.start_id := rfl

theorem DFSA.add_transition_start_id [DecidableEq E] (d : DFSA E A)
    (from_id : Nat) (e : E) (to_id : Nat) :
    (d.add_transition from_id e to_id).2.start_id = d.start_id := by
  unfold DFSA.add_transition
  repeat' split
  all_goals rfl

theorem DFSA.set_state_action_start_id (d : DFSA E A) (id : Nat) (a : Option A) :
    (d.set_state_action id a).2.start_id = d.start_id := by
  unfold DFSA.set_state_action
  repeat' split
  all_goals rfl

theorem addTriggerWalk_start_id [DecidableEq E] (cs : List E) :
    ∀ (d : DFSA E A) (cur : Nat), (addTriggerWalk cs d cur).2.start_id = d.start_id := by
  induction cs with
  | nil => intro d cur; rfl
  | cons c cs ih =>
    intro d cur
    unfold addTriggerWalk
    cases ht : d.try_get_transition cur c with
    | ok next_id =>
      simp only [ht]
      exact ih d next_id
    | error e =>
      simp only [ht]
      rcases hadd : (d.add_state).2.add_transition cur c (d.add_state).1 with ⟨res, d2⟩
      have h2 : d2.start_id = d.start_id := by
        have h3 := DFSA.add_transition_start_id (d.add_state).2 cur c (d.add_state).1
        rw [hadd] at h3
        exact h3
      cases res with
      | ok u => exact (ih d2 (d.add_state).1).trans h2
      | error e2 => exact h2

theorem Lexer.add_trigger_start_id (l : Lexer K) (pfx : List Char)
    (cb : SourceReader → Option K × SourceReader) :
    (l.add_trigger pfx cb).2.trigger_dfsa.start_id = l.trigger_dfsa.start_id := by
  unfold Lexer.add_trigger
  cases hs : l.trigger_dfsa.try_get_start_id with
  | error e => rfl
  | ok start_id =>
    simp only [hs]
    rcases hw : addTriggerWalk pfx l.trigger_dfsa start_id with ⟨res, d⟩
    have hd : d.start_id = l.trigger_dfsa.start_id := by
      have h3 := addTriggerWalk_start_id pfx l.trigger_dfsa start_id
      rw [hw] at h3
      exact h3
    cases res with
    | error e => exact hd
    | ok current_id =>
      cases ha : d.try_get_state_action current_id with
      | ok act => simp only [ha]; exact hd
      | error e =>
        simp only [ha]
        rcases hset : d.set_state_action current_id (some ⟨cb⟩) with ⟨res2, d2⟩
        have hd2 : d2.start_id = d.start_id := by
          have h4 := DFSA.set_state_action_start_id d current_id (some ⟨cb⟩)
          rw [hset] at h4
          exact h4
        cases res2 with
        | ok u => exact hd2.trans hd
        | error e2 => exact hd2.trans hd

theorem Lexer.from_triggers_start_id
    (ts : List (List Char × (SourceReader → Option K × SourceReader))) :
    ∀ l : Lexer K, l.trigger_dfsa.start_id = some 0 →
      (ts.foldl (fun l t => (l.add_trigger t.1 t.2).2) l).trigger_dfsa.start_id = some 0 := by
  induction ts with
  | nil => intro l h; exact h
  | cons t ts ih =>
    intro l h
    exact ih _ (by rw [Lexer.add_trigger_start_id]; exact h)

theorem lex_next_trigger_action_no_fsa_error (lexer : Lexer K) (r : SourceReader)
    (s : Nat) (h : lexer.trigger_dfsa.try_get_start_id = .ok s) (x : FSAError) :
    (LexerContext.lex_next_trigger_action lexer r).1 ≠ .error (.FSAError x) := by
  unfold LexerContext.lex_next_trigger_action DFSAExecutor.new
  rw [h]
  repeat' split
  all_goals try simp_all
  all_goals (cases r.peek_next.toOption <;> simp)

theorem lex_next_fueled_no_nostart_error (lexer : Lexer K) (s : Nat)
    (h : lexer.trigger_dfsa.try_get_start_id = .ok s) :
    ∀ (fuel : Nat) (r : SourceReader),
      (LexerContext.lex_next_fueled lexer fuel r).1 ≠ .error (.FSAError .NoStartId) := by
  intro fuel
  induction fuel with
  | zero =>
    intro r
    simp [LexerContext.lex_next_fueled]
  | succ n ih =>
    intro r
    unfold LexerContext.lex_next_fueled
    split
    next e r' heq =>
      intro hc
      have he : e = LexingError.FSAError .NoStartId := by simpa using hc
      subst he
      exact lex_next_trigger_action_no_fsa_error lexer r s h .NoStartId (by rw [heq])
    next act r' heq =>
      split
      next kind r2 hcb =>
        split
        next text r3 hpop => simp
        next e r3 hpop => simp
      next r2 hcb =>
        split
        next u r3 hclear => exact ih r3
        next e r3 hclear => simp

/-- C10: any lexer built with `Lexer::new` followed by any sequence of
`add_trigger` calls has start id 0 in its trigger DFSA, so `try_get_start_id`
succeeds, the `DFSAExecutor::new` performed inside `lex_next` yields the
executor at state 0, and no `lex_next` can ever fail with `NoStartId`. -/
theorem c10_trigger_dfsa_always_has_start (K : Type)
    (ts : List (List Char × (SourceReader → Option K × SourceReader))) :
    (Lexer.from_triggers ts).trigger_dfsa.try_get_start_id = .ok 0
  ∧ DFSAExecutor.new (Lexer.from_triggers ts).trigger_dfsa = .ok ⟨0, 0⟩
  ∧ ∀ r : SourceReader,
      (LexerContext.lex_next (Lexer.from_triggers ts) r).1 ≠
        .error (.FSAError .NoStartId) := by
  have hstart : (Lexer.from_triggers ts).trigger_dfsa.start_id = some 0 :=
    Lexer.from_triggers_start_id ts Lexer.new rfl
  have hget : (Lexer.from_triggers ts).trigger_dfsa.try_get_start_id = .ok 0 := by
    unfold DFSA.try_get_start_id
    rw [hstart]
  refine ⟨hget, ?_, ?_⟩
  · unfold DFSAExecutor.new
    rw [hget]
  · intro r
    exact lex_next_fueled_no_nostart_error (Lexer.from_triggers ts) 0 hget _ r

/-- C2: on a DFSA with states 0, 1, 2, `add_transition 0 'a' 1` succeeds and a
second `add_transition 0 'a' 2` fails with `TransitionAlreadyExists` — but
afterwards `try_get_transition 0 'a'` returns 2, not 1: the failed insertion
overwrote the transition table. -/
theorem c2_add_transition_duplicate :
    c2_first.1 = .ok ()
  ∧ c2_second.1 = .error .TransitionAlreadyExists
  ∧ c2_second.2.try_get_transition 0 'a' = .ok 2
  ∧ (2 : Nat) ≠ 1 :=
  ⟨rfl, rfl, rfl, by decide⟩

/-- C7 counterexample: on the DFSA with the single state 0 (the start) and the
self-loop transition 0 —'a'→ 0, a `step 'a'` from the fresh executor succeeds
and `is_at_start` is still `true` afterwards, refuting "after any successful
step is_at_start() is false, even for a DFSA whose transitions lead back to
the start state". -/
theorem c7_is_at_start_counterexample :
    DFSAExecutor.new c7_dfsa = .ok ⟨0, 0⟩
  ∧ ((DFSAExecutor.mk 0 0).step c7_dfsa 'a').1 = .ok ()
  ∧ ((DFSAExecutor.mk 0 0).step c7_dfsa 'a').2.is_at_start = true :=
  ⟨rfl, rfl, rfl⟩

/-- C7 (amended): `is_at_start()` is true iff the cursor id equals the start
id. It is true after construction and after `reset()`; a successful step makes
it false exactly when the destination state differs from the start id (so a
transition back to the start leaves it true); a failed step leaves the
executor unchanged. -/
theorem c7_is_at_start_amended {E A : Type} [DecidableEq E] (d : DFSA E A)
    (ex ex' : DFSAExecutor) (e : E) :
    (ex.is_at_start = true ↔ ex.current_id = ex.start_id)
  ∧ ex.reset.is_at_start = true
  ∧ (DFSAExecutor.new d = .ok ex' → ex'.is_at_start = true)
  ∧ ((ex.step d e).1 = .ok () →
      ((ex.step d e).2.is_at_start = true ↔ (ex.step d e).2.current_id = ex.start_id))
  ∧ (∀ err, (ex.step d e).1 = .error err → (ex.step d e).2 = ex) := by
  refine ⟨?_, ?_, ?_, ?_, ?_⟩
  · rw [DFSAExecutor.is_at_start, beq_iff_eq]
    exact eq_comm
  · simp [DFSAExecutor.reset, DFSAExecutor.is_at_start]
  · intro h
    unfold DFSAExecutor.new at h
    cases hs : d.try_get_start_id with
    | error e2 => rw [hs] at h; cases h
    | ok s =>
      rw [hs] at h
      cases h
      simp [DFSAExecutor.is_at_start]
  · intro h
    unfold DFSAExecutor.step at h ⊢
    cases ht : d.try_get_transition ex.current_id e with
    | error err => rw [ht] at h; simp at h
    | ok next_id =>
      simp only [ht, DFSAExecutor.is_at_start]
      rw [beq_iff_eq]
      exact eq_comm
  · intro err h
    unfold DFSAExecutor.step at h ⊢
    cases ht : d.try_get_transition ex.current_id e with
    | error e2 => simp only [ht]
    | ok next_id => rw [ht] at h; simp at h

/-- C7 witness: the amended theorem applied at the self-loop DFSA (successful
step back to the start keeps `is_at_start` true) and at a missing transition
(failed step leaves the executor unchanged). -/
theorem c7_is_at_start_witness :
    ((DFSAExecutor.mk 0 0).step c7_dfsa 'a').2.is_at_start = true
  ∧ ((DFSAExecutor.mk 0 0).step c7_dfsa 'b').2 = DFSAExecutor.mk 0 0 := by
  constructor
  · have h := (c7_is_at_start_amended c7_dfsa (DFSAExecutor.mk 0 0)
      (DFSAExecutor.mk 0 0) 'a').2.2.2.1
    have hs := h rfl
    rw [hs]
    rfl
  · have h := (c7_is_at_start_amended c7_dfsa (DFSAExecutor.mk 0 0)
      (DFSAExecutor.mk 0 0) 'b').2.2.2.2
    exact h .NoSuchTransition rfl

/-! ## Claim C9: frame effect of the terminal parser -/

theorem parse_token_eq [DecidableEq K] [Tree T] (k : K) (act : Token Unit → T)
    (r : TokenReader K) :
    (Parser.token k act : Parser K T).parse r =
      match r.eat_next with
      | (some tok, r1) =>
        if tok.kind = k then (.ok (act tok.to_kindless), r1)
        else (.error (.UnexpectedToken {k} tok), r1)
      | (none, r1) => (.error (.UnexpectedEndOfSource {k}), r1) := by
  simp only [Parser.parse, token_expected_tokens]

/-- C9: when the terminal parser fails with `UnexpectedToken` (kind mismatch),
the token reader's offset has advanced by exactly one — the offending token was
consumed and the terminal does not rewind; when it fails with
`UnexpectedEndOfSource`, the offset is unchanged. -/
theorem c9_terminal_frame_effect {K T : Type} [DecidableEq K] [Tree T]
    (token_kind : K) (action : Token Unit → T) (r : TokenReader K) :
    (∀ es tok,
        ((Parser.token token_kind action : Parser K T).parse r).1 =
          .error (.UnexpectedToken es tok) →
        ((Parser.token token_kind action : Parser K T).parse r).2.offset = r.offset + 1)
  ∧ (∀ es,
        ((Parser.token token_kind action : Parser K T).parse r).1 =
          .error (.UnexpectedEndOfSource es) →
        ((Parser.token token_kind action : Parser K T).parse r).2.offset = r.offset) := by
  constructor
  · intro es tok hc
    rw [parse_token_eq] at hc ⊢
    rcases he : r.eat_next with ⟨t?, r1⟩
    rw [he] at hc
    cases t? with
    | none => simp only [] at hc; simp at hc
    | some tok0 =>
      simp only [] at hc ⊢
      by_cases hk : tok0.kind = token_kind
      · rw [if_pos hk] at hc; simp at hc
      · rw [if_neg hk]
        exact TokenReader.eat_next_offset_some r tok0 r1 he
  · intro es hc
    rw [parse_token_eq] at hc ⊢
    rcases he : r.eat_next with ⟨t?, r1⟩
    rw [he] at hc
    cases t? with
    | none =>
      simp only []
      exact TokenReader.eat_next_offset_none r r1 he
    | some tok0 =>
      simp only [] at hc ⊢
      by_cases hk : tok0.kind = token_kind
      · rw [if_pos hk] at hc; simp at hc
      · rw [if_neg hk] at hc; simp at hc

/-- C9 witness: over the token stream [C] the terminal parser for kind A fails
with a kind mismatch and the offset advanced from 0 to 1; over the empty token
stream it fails with end of source and the offset stays 0. -/
theorem c9_terminal_frame_effect_witness :
    ((Parser.token PK.A PT.mk : Parser PK PT).parse rdC).2.offset = rdC.offset + 1
  ∧ ((Parser.token PK.A PT.mk : Parser PK PT).parse rdEmptyPK).2.offset = rdEmptyPK.offset := by
  constructor
  · exact (c9_terminal_frame_effect PK.A PT.mk rdC).1 {PK.A} tokC rfl
  · exact (c9_terminal_frame_effect PK.A PT.mk rdEmptyPK).2 {PK.A} rfl

/-! ## Claim C5: choice parser failure aggregation and complete backtracking -/

theorem parseChoices_none_offset [DecidableEq K] [Tree T] :
    ∀ (cs : ParserList K T) (saved : Nat) (r : TokenReader K), r.offset = saved →
      (ParserList.parseChoices cs saved r).1 = none →
      (ParserList.parseChoices cs saved r).2.offset = saved
  | .nil, saved, r, h, _ => by
    simpa [ParserList.parseChoices] using h
  | .cons p ps, saved, r, h, hn => by
    simp only [ParserList.parseChoices] at hn ⊢
    rcases hp : p.parse r with ⟨res, r1⟩
    rw [hp] at hn
    cases res with
    | ok t => simp at hn
    | error e =>
      simp only [] at hn ⊢
      exact parseChoices_none_offset ps saved (r1.seek saved) rfl hn

/-- C5: for every choice parser whose expected-token set is `es` (the union of
all sub-parsers' expected sets), from any reader state on which all children
fail, the choice returns `UnexpectedToken` carrying the token currently at the
reader, or `UnexpectedEndOfSource` when the reader is exhausted, both with
expected set `es`, and the reader's offset after the error equals the offset
at entry (backtracking is complete). -/
theorem c5_choice_all_fail {K T : Type} [DecidableEq K] [Tree T]
    (cs : ParserList K T) (r : TokenReader K) (es : Finset K)
    (hes : (Parser.choice cs : Parser K T).expected_tokens = .ok es)
    (hfail : (ParserList.parseChoices cs r.offset r).1 = none) :
    ParserList.unionExpected cs = .ok es
  ∧ ((Parser.choice cs : Parser K T).parse r).2.offset = r.offset
  ∧ (∀ tok r2, ((ParserList.parseChoices cs r.offset r).2).peek_next = (some tok, r2) →
      (Parser.choice cs : Parser K T).parse r = (.error (.UnexpectedToken es tok), r2))
  ∧ (∀ r2, ((ParserList.parseChoices cs r.offset r).2).peek_next = (none, r2) →
      (Parser.choice cs : Parser K T).parse r = (.error (.UnexpectedEndOfSource es), r2)) := by
  have hunion : ParserList.unionExpected cs = .ok es := expectedSafe_ok _ es hes
  have hoff : (ParserList.parseChoices cs r.offset r).2.offset = r.offset :=
    parseChoices_none_offset cs r.offset r rfl hfail
  have hparse :
      (Parser.choice cs : Parser K T).parse r =
        match ((ParserList.parseChoices cs r.offset r).2).peek_next with
        | (some tok, r2) => (.error (.UnexpectedToken es tok), r2)
        | (none, r2) => (.error (.UnexpectedEndOfSource es), r2) := by
    simp only [Parser.parse]
    rcases hc : ParserList.parseChoices cs r.offset r with ⟨res, r1⟩
    rw [hc] at hfail
    cases res with
    | some t => simp at hfail
    | none =>
      simp only []
      rw [hes]
  refine ⟨hunion, ?_, ?_, ?_⟩
  · rw [hparse]
    rcases hp : ((ParserList.parseChoices cs r.offset r).2).peek_next with ⟨tok?, r2⟩
    have h3 := TokenReader.peek_next_offset ((ParserList.parseChoices cs r.offset r).2)
    rw [hp] at h3
    cases tok? with
    | some tok => exact h3.trans hoff
    | none => exact h3.trans hoff
  · intro tok r2 hp
    rw [hparse, hp]
  · intro r2 hp
    rw [hparse, hp]

/-- C5 witness: a choice of terminals for A and B over the token stream [C]
fails on both children, returns `UnexpectedToken` with expected set {A, B} and
the C token, and the reader offset remains 0. -/
theorem c5_choice_all_fail_witness :
    ((Parser.choice csAB : Parser PK PT).parse rdC).2.offset = rdC.offset
  ∧ (Parser.choice csAB : Parser PK PT).parse rdC =
      (.error (.UnexpectedToken {PK.A, PK.B} tokC), TokenReader.mk [tokC] 0 []) := by
  have h := c5_choice_all_fail csAB rdC {PK.A, PK.B} rfl rfl
  exact ⟨h.2.1, h.2.2.1 tokC (TokenReader.mk [tokC] 0 []) rfl⟩

/-! ## Claim C6: sequence parser expected tokens and anchor -/

/-- C6: for a sequence parser with a non-empty sub-parser list,
`expected_tokens()` equals the first sub-parser's `expected_tokens()`, and a
successful parse produced its tree by applying the construction action to the
first child's token as anchor together with the collected children. -/
theorem c6_sequential_first {K T : Type} [DecidableEq K] [Tree T]
    (p : Parser K T) (ps : ParserList K T) (action : Token Unit → List T → T)
    (r : TokenReader K) :
    (Parser.sequential (.cons p ps) action : Parser K T).expected_tokens = p.expected_tokens
  ∧ (∀ t rOut,
      (Parser.sequential (.cons p ps) action : Parser K T).parse r = (.ok t, rOut) →
      ∃ c0 r1 cs, p.parse r = (.ok c0, r1)
        ∧ ParserList.parseSeq ps r1 = (.ok cs, rOut)
        ∧ t = action (Tree.token c0) (c0 :: cs)) := by
  constructor
  · show expectedSafe (expectedSafe p.expected_tokens_unsafe) = _
    rw [expectedSafe_idem]
    rfl
  · intro t rOut h
    simp only [Parser.parse, ParserList.parseSeq] at h
    rcases hp : p.parse r with ⟨res0, r1⟩
    rw [hp] at h
    cases res0 with
    | error e => simp at h
    | ok c0 =>
      simp only [] at h
      rcases hs : ParserList.parseSeq ps r1 with ⟨res1, r2⟩
      rw [hs] at h
      cases res1 with
      | error e => simp at h
      | ok cs =>
        simp only [] at h
        simp only [List.head?_cons] at h
        injection h with h1 h2
        injection h1 with h1
        subst h2
        subst h1
        exact ⟨c0, r1, cs, rfl, hs, rfl⟩

/-- C6 witness: the sequence of terminals for A and B over the token stream
[A, B]: its expected tokens are those of the first terminal ({A}), and the
successful parse anchors the constructed tree at the first child's token. -/
theorem c6_sequential_first_witness :
    seqAB.expected_tokens = .ok {PK.A}
  ∧ ∃ c0 r1 cs,
      (Parser.token PK.A PT.mk : Parser PK PT).parse rdAB = (.ok c0, r1)
      ∧ ParserList.parseSeq (.cons (.token PK.B PT.mk) .nil) r1 =
          (.ok cs, TokenReader.mk [tokA, tokB] 2 [])
      ∧ PT.mk tokA.to_kindless = c6_act (Tree.token c0) (c0 :: cs) := by
  have h := c6_sequential_first (.token PK.A PT.mk) (.cons (.token PK.B PT.mk) .nil)
    c6_act rdAB
  constructor
  · exact h.1.trans (token_expected_tokens PK.A PT.mk)
  · have h2 := h.2 (PT.mk tokA.to_kindless) (TokenReader.mk [tokA, tokB] 2 []) rfl
    obtain ⟨c0, r1, cs, hp, hs, ht⟩ := h2
    exact ⟨c0, r1, cs, hp, hs, ht⟩

end Langtools
